import Mathlib

/-!
Shallow embedding of the token-bucket rate limiter
(`RateLimiter` class: `isAllowed`, `getRemainingTokens`,
`getResetTimeSeconds`, `cleanup`, `startCleanup`, `stopCleanup`).

JavaScript numbers holding token counts and configuration values are
modelled as rationals (all the arithmetic the limiter performs on them is
exact in ℚ for the inputs of interest); timestamps (`Date.now()`
milliseconds) are modelled as integers.  The `Map<string, TokenBucket>`
store is modelled as a function `String → Option TokenBucket`; the
`setInterval` timer handle is modelled by an optional timer id together
with a count of currently active timers.
-/

namespace KiwiSoluna

/-- Configuration record `RateLimitConfig`: `tokensPerInterval`, `interval` (ms), `bucketSize`. -/
structure RateLimitConfig where
  tokensPerInterval : ℚ
  interval : ℚ
  bucketSize : ℚ
deriving DecidableEq

/-- Per-client state `TokenBucket`: `tokens` and `lastRefill` (ms timestamp). -/
structure TokenBucket where
  tokens : ℚ
  lastRefill : ℤ
deriving DecidableEq

/-- Mutable state of a `RateLimiter` instance: the bucket store plus the
cleanup-timer bookkeeping (`cleanupIntervalId`), with `activeTimers`
counting the interval timers currently installed by this instance and
`nextTimerId` supplying fresh ids. -/
structure RateLimiterState where
  buckets : String → Option TokenBucket
  cleanupIntervalId : Option ℕ
  nextTimerId : ℕ
  activeTimers : ℕ

/-- The state of a freshly constructed `RateLimiter` (empty `Map`, no
cleanup timer). -/
def initialState : RateLimiterState :=
  { buckets := fun _ => none
    cleanupIntervalId := none
    nextTimerId := 1
    activeTimers := 0 }

/-- The method `isAllowed(identifier)`: looks up the bucket; creates it with
`bucketSize - 1` tokens on a miss (admitting the request), otherwise
refills by `floor(elapsed / interval) * tokensPerInterval` clamped at
`bucketSize`, stamps `lastRefill = now`, and consumes one token when at
least one is available.  Returns the verdict and the updated state. -/
def isAllowed (cfg : RateLimitConfig) (now : ℤ) (identifier : String)
    (s : RateLimiterState) : Bool × RateLimiterState :=
  match s.buckets identifier with
  | none =>
      let bucket : TokenBucket := { tokens := cfg.bucketSize - 1, lastRefill := now }
      let buckets' := Function.update s.buckets identifier (some bucket)
      (true, { s with buckets := buckets' })
  | some bucket =>
      let elapsed : ℤ := now - bucket.lastRefill
      let tokensToAdd : ℚ := (⌊(elapsed : ℚ) / cfg.interval⌋ : ℚ) * cfg.tokensPerInterval
      let refilled : ℚ := min cfg.bucketSize (bucket.tokens + tokensToAdd)
      if 1 ≤ refilled then
        let buckets' := Function.update s.buckets identifier
          (some { tokens := refilled - 1, lastRefill := now })
        (true, { s with buckets := buckets' })
      else
        let buckets' := Function.update s.buckets identifier
          (some { tokens := refilled, lastRefill := now })
        (false, { s with buckets := buckets' })

/-- The method `getRemainingTokens(identifier)`: `bucketSize` on a miss, otherwise
`Math.floor(tokens)` of the stored bucket.  A pure read. -/
def getRemainingTokens (cfg : RateLimitConfig) (identifier : String)
    (s : RateLimiterState) : ℚ :=
  match s.buckets identifier with
  | none => cfg.bucketSize
  | some bucket => (⌊bucket.tokens⌋ : ℚ)

/-- The method `getResetTimeSeconds(identifier)`: `0` on a miss or when
`tokens >= 1`; otherwise `ceil(ceil((1 - tokens) / tokensPerInterval *
interval) / 1000)` whole seconds.  A pure read. -/
def getResetTimeSeconds (cfg : RateLimitConfig) (identifier : String)
    (s : RateLimiterState) : ℤ :=
  match s.buckets identifier with
  | none => 0
  | some bucket =>
      if 1 ≤ bucket.tokens then 0
      else
        let tokensNeeded : ℚ := 1 - bucket.tokens
        let msUntilToken : ℤ := ⌈tokensNeeded / cfg.tokensPerInterval * cfg.interval⌉
        ⌈(msUntilToken : ℚ) / 1000⌉

/-- The staleness threshold of `cleanup`: 5 minutes in milliseconds. -/
def staleThreshold : ℤ := 5 * 60 * 1000

/-- One `cleanup()` sweep pass at time `now`: deletes every bucket with
`now - lastRefill > staleThreshold`. -/
def cleanup (now : ℤ) (s : RateLimiterState) : RateLimiterState :=
  { s with buckets := fun key =>
      match s.buckets key with
      | some bucket =>
          if staleThreshold < now - bucket.lastRefill then none else some bucket
      | none => none }

/-- The method `startCleanup`: a no-op when a timer id is already recorded; otherwise
installs a fresh interval timer and records its id. -/
def startCleanup (s : RateLimiterState) : RateLimiterState :=
  match s.cleanupIntervalId with
  | some _ => s
  | none =>
      { s with cleanupIntervalId := some s.nextTimerId
               nextTimerId := s.nextTimerId + 1
               activeTimers := s.activeTimers + 1 }

/-- The method `stopCleanup`: clears the recorded interval timer when one is
recorded (`clearInterval` plus resetting the id to `null`); otherwise a
no-op. -/
def stopCleanup (s : RateLimiterState) : RateLimiterState :=
  match s.cleanupIntervalId with
  | some _ => { s with cleanupIntervalId := none, activeTimers := s.activeTimers - 1 }
  | none => s

/-- The configuration of the default exported `rateLimiter` instance:
1 token per 2000 ms, burst capacity 10. -/
def defaultConfig : RateLimitConfig :=
  { tokensPerInterval := 1, interval := 2000, bucketSize := 10 }

/-- Runs `n` immediately successive `isAllowed` calls (same `now`) for one
identifier, collecting the verdicts. -/
def repeatIsAllowed (cfg : RateLimitConfig) (now : ℤ) (identifier : String) :
    ℕ → RateLimiterState → List Bool × RateLimiterState
  | 0, s => ([], s)
  | Nat.succ k, s =>
      let r := isAllowed cfg now identifier s
      let rest := repeatIsAllowed cfg now identifier k r.2
      (r.1 :: rest.1, rest.2)

/-- One operation of the limiter's public interface, tagged with the
`Date.now()` value observed by the operations that read the clock. -/
inductive Op where
  | isAllowed (now : ℤ) (identifier : String)
  | getRemainingTokens (identifier : String)
  | getResetTimeSeconds (identifier : String)
  | cleanup (now : ℤ)
  | startCleanup
  | stopCleanup

/-- The state transition performed by one operation (the two queries read
the store without writing to it, exactly as in the source). -/
def step (cfg : RateLimitConfig) (s : RateLimiterState) : Op → RateLimiterState
  | Op.isAllowed now idf => (isAllowed cfg now idf s).2
  | Op.getRemainingTokens _ => s
  | Op.getResetTimeSeconds _ => s
  | Op.cleanup now => cleanup now s
  | Op.startCleanup => startCleanup s
  | Op.stopCleanup => stopCleanup s

/-- Running a sequence of operations from a state. -/
def run (cfg : RateLimitConfig) : RateLimiterState → List Op → RateLimiterState
  | s, [] => s
  | s, op :: ops => run cfg (step cfg s op) ops

/-- The clock value an operation observes, when it reads the clock. -/
def opTime : Op → Option ℤ
  | Op.isAllowed now _ => some now
  | Op.cleanup now => some now
  | _ => none

/-- The clock readings along a sequence of operations are non-decreasing
and start no earlier than `t` (`Date.now()` is monotone). -/
def timeOrderedFrom : ℤ → List Op → Bool
  | _, [] => true
  | t, op :: ops =>
      match opTime op with
      | none => timeOrderedFrom t ops
      | some t' => decide (t ≤ t') && timeOrderedFrom t' ops

/-- The refill amount the spec prescribes for an existing bucket checked
at time `now`: `min(bucketSize, tokens + floor((now - lastRefill) /
interval) * tokensPerInterval)`. -/
def refillAmount (cfg : RateLimitConfig) (now : ℤ) (b : TokenBucket) : ℚ :=
  min cfg.bucketSize
    (b.tokens + (⌊((now - b.lastRefill : ℤ) : ℚ) / cfg.interval⌋ : ℚ) * cfg.tokensPerInterval)

/-- Every bucket held in the store satisfies `0 ≤ tokens ≤ bucketSize`. -/
def bucketsInv (cfg : RateLimitConfig) (s : RateLimiterState) : Prop :=
  ∀ idf b, s.buckets idf = some b → 0 ≤ b.tokens ∧ b.tokens ≤ cfg.bucketSize

/-- Every bucket held in the store has `lastRefill ≤ t`. -/
def refillsLe (t : ℤ) (s : RateLimiterState) : Prop :=
  ∀ idf b, s.buckets idf = some b → b.lastRefill ≤ t

/-- A non-degenerate configuration: at least one token of burst capacity,
a non-negative grant per interval, a positive interval. -/
def wellFormed (cfg : RateLimitConfig) : Prop :=
  1 ≤ cfg.bucketSize ∧ 0 ≤ cfg.tokensPerInterval ∧ 0 < cfg.interval

/-- A zero-capacity configuration (`bucketSize = 0`), used to exhibit the
behaviour of the creation path at the boundary. -/
def zeroCapacityConfig : RateLimitConfig :=
  { tokensPerInterval := 1, interval := 2000, bucketSize := 0 }

/-- A store holding a single exhausted bucket for `"w"` refilled at time
`0`, used to instantiate theorems about existing buckets. -/
def witnessState : RateLimiterState :=
  { initialState with
      buckets := Function.update initialState.buckets "w" (some { tokens := 0, lastRefill := 0 }) }

/-- An integer-valued configuration whose `tokensPerInterval` (3) does not
divide `interval` (2000), exhibiting a non-trivial inner ceiling in
`getResetTimeSeconds`. -/
def thirdTokenConfig : RateLimitConfig :=
  { tokensPerInterval := 3, interval := 2000, bucketSize := 1 }

/-- A store holding a single bucket for `"a"` with 5 tokens refilled at
time `0`, used to exercise the sweep at concrete ages. -/
def staleState : RateLimiterState :=
  { initialState with
      buckets := Function.update initialState.buckets "a" (some { tokens := 5, lastRefill := 0 }) }

/-- A rational holding an integer value (the value a JavaScript number
holds when every arithmetic step on it stayed integral). -/
def IsIntValued (q : ℚ) : Prop := ∃ z : ℤ, q = (z : ℚ)

/-- Every bucket held in the store has an integer-valued token count. -/
def intTokens (s : RateLimiterState) : Prop :=
  ∀ idf b, s.buckets idf = some b → IsIntValued b.tokens

/-! ### Helper lemmas about single operations -/

theorem isAllowed_none_eq (cfg : RateLimitConfig) (now : ℤ) (idf : String)
    (s : RateLimiterState) (hb : s.buckets idf = none) :
    isAllowed cfg now idf s =
      (true, { s with buckets := Function.update s.buckets idf (some ⟨cfg.bucketSize - 1, now⟩) }) := by
  unfold isAllowed
  rw [hb]

theorem isAllowed_some_eq (cfg : RateLimitConfig) (now : ℤ) (idf : String)
    (s : RateLimiterState) (b : TokenBucket) (hb : s.buckets idf = some b) :
    isAllowed cfg now idf s =
      (decide (1 ≤ refillAmount cfg now b),
       { s with buckets := Function.update s.buckets idf (some ⟨if 1 ≤ refillAmount cfg now b then refillAmount cfg now b - 1 else refillAmount cfg now b, now⟩) }) := by
  unfold isAllowed refillAmount
  rw [hb]
  dsimp only
  split_ifs with h
  · rw [decide_eq_true h]
  · rw [decide_eq_false h]

theorem isAllowed_buckets_other (cfg : RateLimitConfig) (now : ℤ) (idf idf' : String)
    (s : RateLimiterState) (hne : idf' ≠ idf) :
    (isAllowed cfg now idf s).2.buckets idf' = s.buckets idf' := by
  unfold isAllowed
  cases hb : s.buckets idf with
  | none => simp [Function.update_noteq hne]
  | some b =>
      dsimp only
      split_ifs <;> simp [Function.update_noteq hne]

theorem refillAmount_same_instant (cfg : RateLimitConfig) (now : ℤ) (q : ℚ) :
    refillAmount cfg now { tokens := q, lastRefill := now } = min cfg.bucketSize q := by
  unfold refillAmount
  norm_num

end KiwiSoluna

namespace KiwiSoluna

/-! ### Claim theorems: direct operations -/

/-- C1: for an identifier that already has a bucket, `isAllowed` at time
`now` stores `min(bucketSize, tokens + floor((now - lastRefill) /
interval) * tokensPerInterval)` refilled tokens, stamps `lastRefill =
now` unconditionally, consumes exactly one token and returns `true` when
the refilled amount is at least 1, and otherwise returns `false` leaving
only the refill applied. -/
theorem isAllowed_refill_consume (cfg : RateLimitConfig) (now : ℤ) (idf : String)
    (s : RateLimiterState) (b : TokenBucket) (hb : s.buckets idf = some b) :
    (isAllowed cfg now idf s).2.buckets idf = some ⟨if 1 ≤ refillAmount cfg now b then refillAmount cfg now b - 1 else refillAmount cfg now b, now⟩ ∧
    ((isAllowed cfg now idf s).1 = true ↔ 1 ≤ refillAmount cfg now b) := by
  rw [isAllowed_some_eq cfg now idf s b hb]
  refine ⟨by dsimp only; rw [Function.update_same], ?_⟩
  dsimp only
  exact ⟨fun ht => of_decide_eq_true ht, fun h => decide_eq_true h⟩

/-- Witness for C1: an exhausted bucket for `"w"` refilled at time `0` and
checked at time `2000`. -/
theorem isAllowed_refill_consume_witness :
    (isAllowed defaultConfig 2000 "w" witnessState).2.buckets "w" = some ⟨if 1 ≤ refillAmount defaultConfig 2000 ⟨0, 0⟩ then refillAmount defaultConfig 2000 ⟨0, 0⟩ - 1 else refillAmount defaultConfig 2000 ⟨0, 0⟩, 2000⟩ ∧
    ((isAllowed defaultConfig 2000 "w" witnessState).1 = true ↔ 1 ≤ refillAmount defaultConfig 2000 ⟨0, 0⟩) :=
  isAllowed_refill_consume defaultConfig 2000 "w" witnessState ⟨0, 0⟩
    (by simp [witnessState, Function.update_same])

/-- C8: a call to `isAllowed` for identifier `a` leaves the bucket stored
for any distinct identifier `b` (its `tokens` and its `lastRefill`)
unchanged. -/
theorem isAllowed_independence (cfg : RateLimitConfig) (now : ℤ) (a b : String)
    (s : RateLimiterState) (hne : b ≠ a) :
    (isAllowed cfg now a s).2.buckets b = s.buckets b :=
  isAllowed_buckets_other cfg now a b s hne

/-- Witness for C8: a call for `"y"` does not disturb `"x"`. -/
theorem isAllowed_independence_witness :
    (isAllowed defaultConfig 0 "y" initialState).2.buckets "x" = initialState.buckets "x" :=
  isAllowed_independence defaultConfig 0 "y" "x" initialState (by decide)

/-- C10: the creation path of `isAllowed` admits unconditionally and
stores `bucketSize - 1` tokens with no lower clamp; in particular a
zero-capacity configuration still admits the first request and records a
token count of `-1`. -/
theorem creation_unconditional (cfg : RateLimitConfig) (now : ℤ) (idf : String)
    (s : RateLimiterState) (hb : s.buckets idf = none) :
    (isAllowed cfg now idf s).1 = true ∧
    (isAllowed cfg now idf s).2.buckets idf = some ⟨cfg.bucketSize - 1, now⟩ ∧
    (isAllowed zeroCapacityConfig 0 "z" initialState).1 = true ∧
    (isAllowed zeroCapacityConfig 0 "z" initialState).2.buckets "z" = some ⟨-1, 0⟩ := by
  have h1 := isAllowed_none_eq cfg now idf s hb
  have h2 := isAllowed_none_eq zeroCapacityConfig 0 "z" initialState rfl
  refine ⟨by rw [h1], ?_, by rw [h2], ?_⟩
  · rw [h1]; dsimp only; rw [Function.update_same]
  · rw [h2]; dsimp only; rw [Function.update_same]
    norm_num [zeroCapacityConfig]

/-- Witness for C10: the first request of `"b"` on the default
configuration is admitted. -/
theorem creation_unconditional_witness :
    (isAllowed defaultConfig 0 "b" initialState).1 = true :=
  (creation_unconditional defaultConfig 0 "b" initialState rfl).1

/-- C4: `getRemainingTokens` returns `bucketSize` when no bucket exists,
otherwise `floor(tokens)` of the stored bucket, performing no refill and
mutating no state. -/
theorem getRemainingTokens_spec (cfg : RateLimitConfig) (idf : String)
    (s : RateLimiterState) :
    (s.buckets idf = none → getRemainingTokens cfg idf s = cfg.bucketSize) ∧
    (∀ b, s.buckets idf = some b → getRemainingTokens cfg idf s = (⌊b.tokens⌋ : ℚ)) ∧
    step cfg s (Op.getRemainingTokens idf) = s := by
  refine ⟨fun h => ?_, fun b h => ?_, rfl⟩
  · unfold getRemainingTokens; rw [h]
  · unfold getRemainingTokens; rw [h]

/-- Witness for C4: an unseen identifier reports full capacity. -/
theorem getRemainingTokens_spec_witness :
    getRemainingTokens defaultConfig "a" initialState = defaultConfig.bucketSize :=
  (getRemainingTokens_spec defaultConfig "a" initialState).1 rfl

/-- C6: after one sweep pass at time `now` an entry survives exactly when
`now - lastRefill` does not exceed the 5-minute threshold; a bucket aged
5 min 1 s is removed and a bucket aged 4 min 59 s is retained. -/
theorem cleanup_sweep_spec :
    (∀ (now : ℤ) (s : RateLimiterState) (key : String) (b : TokenBucket),
      ((cleanup now s).buckets key = some b ↔
        s.buckets key = some b ∧ now - b.lastRefill ≤ staleThreshold)) ∧
    (cleanup 301000 staleState).buckets "a" = none ∧
    (cleanup 299000 staleState).buckets "a" = some ⟨5, 0⟩ := by
  refine ⟨fun now s key b => ?_, ?_, ?_⟩
  · unfold cleanup
    dsimp only
    cases hsb : s.buckets key with
    | none => simp
    | some b' =>
        dsimp only
        split_ifs with h
        · constructor
          · intro hc; exact hc.elim
          · rintro ⟨heq, hle⟩
            rw [Option.some_inj] at heq
            subst heq
            exact absurd h (not_lt.mpr hle)
        · constructor
          · intro heq
            refine ⟨heq, ?_⟩
            rw [Option.some_inj] at heq
            subst heq
            exact not_lt.mp h
          · exact fun hp => hp.1
  · norm_num [cleanup, staleState, initialState, staleThreshold, Function.update_same]
  · norm_num [cleanup, staleState, initialState, staleThreshold, Function.update_same]

/-- C7: sweep lifecycle controls are idempotent and move only between
Stopped and Running: a second `startCleanup` is a no-op keeping exactly
one active timer, `stopCleanup` without a running sweep is a no-op, and a
start followed by one or two stops leaves no active timer. -/
theorem sweep_lifecycle (s : RateLimiterState) :
    startCleanup (startCleanup s) = startCleanup s ∧
    stopCleanup (stopCleanup s) = stopCleanup s ∧
    (∀ i, s.cleanupIntervalId = some i → startCleanup s = s) ∧
    (s.cleanupIntervalId = none → stopCleanup s = s) ∧
    (s.cleanupIntervalId = none ∧ s.activeTimers = 0 →
      (startCleanup s).activeTimers = 1 ∧
      (startCleanup s).cleanupIntervalId = some s.nextTimerId ∧
      (stopCleanup (startCleanup s)).cleanupIntervalId = none ∧
      (stopCleanup (startCleanup s)).activeTimers = 0 ∧
      stopCleanup (stopCleanup (startCleanup s)) = stopCleanup (startCleanup s)) := by
  cases hid : s.cleanupIntervalId with
  | some i => simp [startCleanup, stopCleanup, hid]
  | none =>
      refine ⟨?_, ?_, ?_, ?_, ?_⟩
      · simp [startCleanup, hid]
      · simp [stopCleanup, hid]
      · intro i hi; exact Option.noConfusion hi
      · intro _; simp [stopCleanup, hid]
      · rintro ⟨-, ht⟩
        simp [startCleanup, stopCleanup, hid, ht]

/-- Witness for C7: the lifecycle facts at the freshly constructed
state. -/
theorem sweep_lifecycle_witness :
    (startCleanup initialState).activeTimers = 1 ∧
    (startCleanup initialState).cleanupIntervalId = some initialState.nextTimerId ∧
    (stopCleanup (startCleanup initialState)).cleanupIntervalId = none ∧
    (stopCleanup (startCleanup initialState)).activeTimers = 0 ∧
    stopCleanup (stopCleanup (startCleanup initialState)) = stopCleanup (startCleanup initialState) :=
  (sweep_lifecycle initialState).2.2.2.2 ⟨rfl, rfl⟩

end KiwiSoluna

namespace KiwiSoluna

/-! ### Helper lemmas: draining a bucket by immediate successive calls -/

theorem repeatIsAllowed_succ_eq (cfg : RateLimitConfig) (now : ℤ) (idf : String)
    (k : ℕ) (s : RateLimiterState) :
    repeatIsAllowed cfg now idf (k + 1) s =
      ((isAllowed cfg now idf s).1 ::
        (repeatIsAllowed cfg now idf k (isAllowed cfg now idf s).2).1,
       (repeatIsAllowed cfg now idf k (isAllowed cfg now idf s).2).2) := rfl

theorem repeat_drain (cfg : RateLimitConfig) (now : ℤ) (idf : String) :
    ∀ (k : ℕ) (s : RateLimiterState) (q : ℚ),
      s.buckets idf = some ⟨q, now⟩ → q ≤ cfg.bucketSize → (k : ℚ) ≤ q →
      (repeatIsAllowed cfg now idf k s).1 = List.replicate k true ∧
      (repeatIsAllowed cfg now idf k s).2.buckets idf = some ⟨q - k, now⟩ := by
  intro k
  induction k with
  | zero =>
      intro s q hb _ _
      refine ⟨rfl, ?_⟩
      simpa using hb
  | succ k ih =>
      intro s q hb hqB hk
      have hk1 : (k : ℚ) + 1 ≤ q := by push_cast at hk; linarith
      have h1 : 1 ≤ q := by have := Nat.cast_nonneg (α := ℚ) k; linarith
      have hre : refillAmount cfg now ⟨q, now⟩ = q := by
        rw [refillAmount_same_instant, min_eq_right hqB]
      have heq := isAllowed_some_eq cfg now idf s ⟨q, now⟩ hb
      rw [hre] at heq
      have hb' : (isAllowed cfg now idf s).2.buckets idf = some ⟨q - 1, now⟩ := by
        rw [heq]; dsimp only; rw [Function.update_same, if_pos h1]
      have hfst : (isAllowed cfg now idf s).1 = true := by
        rw [heq]; exact decide_eq_true h1
      obtain ⟨hres, hfin⟩ := ih (isAllowed cfg now idf s).2 (q - 1) hb'
        (by linarith) (by linarith)
      rw [repeatIsAllowed_succ_eq]
      constructor
      · dsimp only
        rw [hfst, hres, List.replicate_succ]
      · dsimp only
        rw [hfin]
        congr 1
        push_cast
        ring_nf

theorem repeat_fresh (cfg : RateLimitConfig) (now : ℤ) (idf : String)
    (s : RateLimiterState) (n : ℕ) (hn : 1 ≤ n) (hB : cfg.bucketSize = (n : ℚ))
    (hb : s.buckets idf = none) :
    (repeatIsAllowed cfg now idf n s).1 = List.replicate n true ∧
    (repeatIsAllowed cfg now idf n s).2.buckets idf = some ⟨0, now⟩ := by
  obtain ⟨m, rfl⟩ : ∃ m, n = m + 1 := ⟨n - 1, by omega⟩
  have h1 := isAllowed_none_eq cfg now idf s hb
  have hb1 : (isAllowed cfg now idf s).2.buckets idf = some ⟨(m : ℚ) + 1 - 1, now⟩ := by
    rw [h1]; dsimp only; rw [Function.update_same, hB]
    congr 2
    push_cast
    ring
  have hfst : (isAllowed cfg now idf s).1 = true := by rw [h1]
  obtain ⟨hres, hfin⟩ := repeat_drain cfg now idf m (isAllowed cfg now idf s).2
    ((m : ℚ) + 1 - 1) hb1 (by rw [hB]; push_cast; linarith) (by linarith)
  rw [repeatIsAllowed_succ_eq]
  constructor
  · dsimp only
    rw [hfst, hres, List.replicate_succ]
  · dsimp only
    rw [hfin]
    congr 2
    ring

theorem exhausted_final (cfg : RateLimitConfig) (now : ℤ) (idf : String)
    (s : RateLimiterState) (hb : s.buckets idf = some ⟨0, now⟩)
    (hB : 0 ≤ cfg.bucketSize) :
    (isAllowed cfg now idf s).1 = false ∧
    (isAllowed cfg now idf s).2.buckets idf = some ⟨0, now⟩ := by
  have hre : refillAmount cfg now ⟨0, now⟩ = 0 := by
    rw [refillAmount_same_instant, min_eq_right hB]
  have heq := isAllowed_some_eq cfg now idf s ⟨0, now⟩ hb
  rw [hre] at heq
  constructor
  · rw [heq]; norm_num
  · rw [heq]; dsimp only; rw [Function.update_same, if_neg (by norm_num)]

theorem repeat_split (cfg : RateLimitConfig) (now : ℤ) (idf : String) :
    ∀ (j : ℕ) (k : ℕ) (s : RateLimiterState),
      repeatIsAllowed cfg now idf (j + k) s =
        ((repeatIsAllowed cfg now idf j s).1 ++
           (repeatIsAllowed cfg now idf k (repeatIsAllowed cfg now idf j s).2).1,
         (repeatIsAllowed cfg now idf k (repeatIsAllowed cfg now idf j s).2).2) := by
  intro j
  induction j with
  | zero =>
      intro k s
      simp [repeatIsAllowed]
  | succ j ih =>
      intro k s
      have hadd : j + 1 + k = (j + k) + 1 := by omega
      rw [hadd, repeatIsAllowed_succ_eq, ih k (isAllowed cfg now idf s).2,
        repeatIsAllowed_succ_eq]
      simp

theorem burst_scenario :
    (repeatIsAllowed defaultConfig 0 "1.2.3.4" 11 initialState).1 =
      List.replicate 10 true ++ [false] ∧
    (repeatIsAllowed defaultConfig 0 "1.2.3.4" 11 initialState).2.buckets "1.2.3.4" =
      some ⟨0, 0⟩ := by
  have hB : defaultConfig.bucketSize = ((10 : ℕ) : ℚ) := by norm_num [defaultConfig]
  obtain ⟨hres, hfin⟩ := repeat_fresh defaultConfig 0 "1.2.3.4" initialState 10
    (by norm_num) hB rfl
  have h11 : (11 : ℕ) = 10 + 1 := by norm_num
  rw [h11, repeat_split defaultConfig 0 "1.2.3.4" 10 1]
  obtain ⟨hlast, hstay⟩ := exhausted_final defaultConfig 0 "1.2.3.4"
    (repeatIsAllowed defaultConfig 0 "1.2.3.4" 10 initialState).2 hfin
    (by norm_num [defaultConfig])
  constructor
  · dsimp only
    rw [hres, repeatIsAllowed_succ_eq]
    dsimp only
    rw [hlast]
    rfl
  · dsimp only
    rw [repeatIsAllowed_succ_eq]
    dsimp only
    exact hstay

/-! ### Claim theorems: burst behaviour and reset time -/

/-- C2 (amended with `1 ≤ n`): for an unseen identifier and a
configuration with `bucketSize = n ≥ 1`, `n` immediately successive
`isAllowed` calls all return `true`, the first call creates the bucket
with `n - 1` tokens (so `getRemainingTokens` right after it reports
`n - 1`), and the `(n+1)`-th call returns `false`. -/
theorem burst_exhaustion (cfg : RateLimitConfig) (n : ℕ) (hn : 1 ≤ n)
    (hB : cfg.bucketSize = (n : ℚ)) (idf : String) (now : ℤ) (s : RateLimiterState)
    (hb : s.buckets idf = none) :
    (repeatIsAllowed cfg now idf n s).1 = List.replicate n true ∧
    (isAllowed cfg now idf s).2.buckets idf = some ⟨(n : ℚ) - 1, now⟩ ∧
    getRemainingTokens cfg idf (isAllowed cfg now idf s).2 = (n : ℚ) - 1 ∧
    (isAllowed cfg now idf (repeatIsAllowed cfg now idf n s).2).1 = false := by
  obtain ⟨hres, hfin⟩ := repeat_fresh cfg now idf s n hn hB hb
  have h1 := isAllowed_none_eq cfg now idf s hb
  have hb1 : (isAllowed cfg now idf s).2.buckets idf = some ⟨(n : ℚ) - 1, now⟩ := by
    rw [h1]; dsimp only; rw [Function.update_same, hB]
  have hrem : getRemainingTokens cfg idf (isAllowed cfg now idf s).2 = (n : ℚ) - 1 := by
    unfold getRemainingTokens
    rw [hb1]
    dsimp only
    have hc : ((n : ℚ) - 1) = (((n : ℤ) - 1 : ℤ) : ℚ) := by push_cast; ring
    rw [hc, Int.floor_intCast]
  have hlast := exhausted_final cfg now idf (repeatIsAllowed cfg now idf n s).2 hfin
    (by rw [hB]; exact Nat.cast_nonneg n)
  exact ⟨hres, hb1, hrem, hlast.1⟩

/-- Witness for C2: the default configuration (`bucketSize = 10`) with a
fresh identifier at time `0`. -/
theorem burst_exhaustion_witness :
    (repeatIsAllowed defaultConfig 0 "c" 10 initialState).1 = List.replicate 10 true ∧
    (isAllowed defaultConfig 0 "c" initialState).2.buckets "c" = some ⟨((10 : ℕ) : ℚ) - 1, 0⟩ ∧
    getRemainingTokens defaultConfig "c" (isAllowed defaultConfig 0 "c" initialState).2 = ((10 : ℕ) : ℚ) - 1 ∧
    (isAllowed defaultConfig 0 "c" (repeatIsAllowed defaultConfig 0 "c" 10 initialState).2).1 = false :=
  burst_exhaustion defaultConfig 10 (by norm_num) (by norm_num [defaultConfig]) "c" 0
    initialState rfl

/-- Counterexample for C2 as frozen: with `bucketSize = 0` (`n = 0`) the
`(n+1)`-th call — the very first call — returns `true`, not `false`,
because the creation path admits unconditionally. -/
theorem burst_exhaustion_counterexample :
    zeroCapacityConfig.bucketSize = ((0 : ℕ) : ℚ) ∧
    (isAllowed zeroCapacityConfig 0 "a" (repeatIsAllowed zeroCapacityConfig 0 "a" 0 initialState).2).1 = true := by
  refine ⟨by norm_num [zeroCapacityConfig], ?_⟩
  have h0 : (repeatIsAllowed zeroCapacityConfig 0 "a" 0 initialState).2 = initialState := rfl
  rw [h0, isAllowed_none_eq zeroCapacityConfig 0 "a" initialState rfl]

/-- C5: `getResetTimeSeconds` returns `0` when no bucket exists or the
stored tokens are at least 1, and otherwise
`ceil(ceil((1 - tokens) / tokensPerInterval * interval) / 1000)` whole
seconds; with the default configuration the identifier `"1.2.3.4"` gets
`true` ten times and then `false`, after which the reset time is `2`. -/
theorem getResetTimeSeconds_spec (cfg : RateLimitConfig) (idf : String)
    (s : RateLimiterState) :
    (s.buckets idf = none → getResetTimeSeconds cfg idf s = 0) ∧
    (∀ b, s.buckets idf = some b → 1 ≤ b.tokens → getResetTimeSeconds cfg idf s = 0) ∧
    (∀ b, s.buckets idf = some b → b.tokens < 1 → getResetTimeSeconds cfg idf s =
      ⌈((⌈(1 - b.tokens) / cfg.tokensPerInterval * cfg.interval⌉ : ℤ) : ℚ) / 1000⌉) ∧
    ((repeatIsAllowed defaultConfig 0 "1.2.3.4" 11 initialState).1 =
       List.replicate 10 true ++ [false] ∧
     getResetTimeSeconds defaultConfig "1.2.3.4"
       (repeatIsAllowed defaultConfig 0 "1.2.3.4" 11 initialState).2 = 2) := by
  refine ⟨fun h => ?_, fun b h h1 => ?_, fun b h hlt => ?_, burst_scenario.1, ?_⟩
  · unfold getResetTimeSeconds; rw [h]
  · unfold getResetTimeSeconds; rw [h]; dsimp only; rw [if_pos h1]
  · unfold getResetTimeSeconds; rw [h]; dsimp only; rw [if_neg (not_le.mpr hlt)]
  · have hsc := burst_scenario.2
    unfold getResetTimeSeconds
    rw [hsc]
    dsimp only
    rw [if_neg (by norm_num)]
    norm_num [defaultConfig]

/-- Witness for C5: an unseen identifier has reset time `0`. -/
theorem getResetTimeSeconds_spec_witness :
    getResetTimeSeconds defaultConfig "a" initialState = 0 :=
  (getResetTimeSeconds_spec defaultConfig "a" initialState).1 rfl

end KiwiSoluna

namespace KiwiSoluna

/-! ### Helper lemmas: trace invariants -/

theorem cleanup_buckets_sub (now : ℤ) (s : RateLimiterState) (key : String)
    (b : TokenBucket) (h : (cleanup now s).buckets key = some b) :
    s.buckets key = some b := by
  unfold cleanup at h
  dsimp only at h
  cases hsb : s.buckets key with
  | none => rw [hsb] at h; exact Option.noConfusion h
  | some b' =>
      rw [hsb] at h
      dsimp only at h
      by_cases hc : staleThreshold < now - b'.lastRefill
      · rw [if_pos hc] at h; exact Option.noConfusion h
      · rw [if_neg hc] at h; exact h

theorem startCleanup_buckets (s : RateLimiterState) :
    (startCleanup s).buckets = s.buckets := by
  cases h : s.cleanupIntervalId <;> simp [startCleanup, h]

theorem stopCleanup_buckets (s : RateLimiterState) :
    (stopCleanup s).buckets = s.buckets := by
  cases h : s.cleanupIntervalId <;> simp [stopCleanup, h]

theorem refillAmount_bounds (cfg : RateLimitConfig) (hwf : wellFormed cfg)
    (now : ℤ) (b : TokenBucket) (hb0 : 0 ≤ b.tokens) (hlr : b.lastRefill ≤ now) :
    0 ≤ refillAmount cfg now b ∧ refillAmount cfg now b ≤ cfg.bucketSize := by
  obtain ⟨hB, htpi, hint⟩ := hwf
  unfold refillAmount
  refine ⟨le_min (by linarith) ?_, min_le_left _ _⟩
  have he : (0 : ℚ) ≤ ((now - b.lastRefill : ℤ) : ℚ) := by
    exact_mod_cast Int.sub_nonneg.mpr hlr
  have hdiv : (0 : ℚ) ≤ ((now - b.lastRefill : ℤ) : ℚ) / cfg.interval :=
    div_nonneg he (le_of_lt hint)
  have hfl : (0 : ℤ) ≤ ⌊((now - b.lastRefill : ℤ) : ℚ) / cfg.interval⌋ :=
    Int.le_floor.mpr (by simpa using hdiv)
  have hadd : (0 : ℚ) ≤ (⌊((now - b.lastRefill : ℤ) : ℚ) / cfg.interval⌋ : ℚ) * cfg.tokensPerInterval :=
    mul_nonneg (by exact_mod_cast hfl) htpi
  linarith

theorem isAllowed_preserves_inv (cfg : RateLimitConfig) (hwf : wellFormed cfg)
    (now : ℤ) (idf : String) (s : RateLimiterState)
    (hinv : bucketsInv cfg s) (hle : refillsLe now s) :
    bucketsInv cfg (isAllowed cfg now idf s).2 ∧
    refillsLe now (isAllowed cfg now idf s).2 := by
  have hB : 1 ≤ cfg.bucketSize := hwf.1
  cases hb : s.buckets idf with
  | none =>
      have he := isAllowed_none_eq cfg now idf s hb
      constructor
      · intro key b hkey
        by_cases hk : key = idf
        · subst hk
          rw [he] at hkey
          dsimp only at hkey
          rw [Function.update_same, Option.some_inj] at hkey
          subst hkey
          exact ⟨by dsimp only; linarith, by dsimp only; linarith⟩
        · rw [he] at hkey
          dsimp only at hkey
          rw [Function.update_noteq hk] at hkey
          exact hinv key b hkey
      · intro key b hkey
        by_cases hk : key = idf
        · subst hk
          rw [he] at hkey
          dsimp only at hkey
          rw [Function.update_same, Option.some_inj] at hkey
          subst hkey
          exact le_refl now
        · rw [he] at hkey
          dsimp only at hkey
          rw [Function.update_noteq hk] at hkey
          exact hle key b hkey
  | some b0 =>
      have he := isAllowed_some_eq cfg now idf s b0 hb
      have hbnd := refillAmount_bounds cfg hwf now b0 (hinv idf b0 hb).1 (hle idf b0 hb)
      constructor
      · intro key b hkey
        by_cases hk : key = idf
        · subst hk
          rw [he] at hkey
          dsimp only at hkey
          rw [Function.update_same, Option.some_inj] at hkey
          subst hkey
          dsimp only
          split_ifs with h1
          · exact ⟨by linarith, by linarith⟩
          · exact ⟨hbnd.1, hbnd.2⟩
        · rw [he] at hkey
          dsimp only at hkey
          rw [Function.update_noteq hk] at hkey
          exact hinv key b hkey
      · intro key b hkey
        by_cases hk : key = idf
        · subst hk
          rw [he] at hkey
          dsimp only at hkey
          rw [Function.update_same, Option.some_inj] at hkey
          subst hkey
          exact le_refl now
        · rw [he] at hkey
          dsimp only at hkey
          rw [Function.update_noteq hk] at hkey
          exact hle key b hkey

theorem run_preserves_inv (cfg : RateLimitConfig) (hwf : wellFormed cfg) :
    ∀ (ops : List Op) (t : ℤ) (s : RateLimiterState),
      timeOrderedFrom t ops = true → bucketsInv cfg s → refillsLe t s →
      bucketsInv cfg (run cfg s ops) := by
  intro ops
  induction ops with
  | nil => intro t s _ hinv _; exact hinv
  | cons op ops ih =>
      intro t s hord hinv hle
      cases op with
      | isAllowed now idf =>
          have hord' : (decide (t ≤ now) && timeOrderedFrom now ops) = true := hord
          rw [Bool.and_eq_true] at hord'
          have htn : t ≤ now := of_decide_eq_true hord'.1
          have hle' : refillsLe now s := fun k b hk => le_trans (hle k b hk) htn
          obtain ⟨hinv2, hle2⟩ := isAllowed_preserves_inv cfg hwf now idf s hinv hle'
          exact ih now _ hord'.2 hinv2 hle2
      | cleanup now =>
          have hord' : (decide (t ≤ now) && timeOrderedFrom now ops) = true := hord
          rw [Bool.and_eq_true] at hord'
          have htn : t ≤ now := of_decide_eq_true hord'.1
          have hinv2 : bucketsInv cfg (cleanup now s) :=
            fun k b hk => hinv k b (cleanup_buckets_sub now s k b hk)
          have hle2 : refillsLe now (cleanup now s) :=
            fun k b hk => le_trans (hle k b (cleanup_buckets_sub now s k b hk)) htn
          exact ih now _ hord'.2 hinv2 hle2
      | getRemainingTokens idf => exact ih t s hord hinv hle
      | getResetTimeSeconds idf => exact ih t s hord hinv hle
      | startCleanup =>
          have hinv2 : bucketsInv cfg (startCleanup s) := by
            intro k b hk; rw [startCleanup_buckets] at hk; exact hinv k b hk
          have hle2 : refillsLe t (startCleanup s) := by
            intro k b hk; rw [startCleanup_buckets] at hk; exact hle k b hk
          exact ih t _ hord hinv2 hle2
      | stopCleanup =>
          have hinv2 : bucketsInv cfg (stopCleanup s) := by
            intro k b hk; rw [stopCleanup_buckets] at hk; exact hinv k b hk
          have hle2 : refillsLe t (stopCleanup s) := by
            intro k b hk; rw [stopCleanup_buckets] at hk; exact hle k b hk
          exact ih t _ hord hinv2 hle2

/-! ### Claim theorems: the token-range invariant -/

/-- C3 (amended): for every well-formed configuration (`bucketSize ≥ 1`,
`tokensPerInterval ≥ 0`, `interval > 0`) and every time-ordered sequence
of operations run from a fresh limiter, every bucket in the store
satisfies `0 ≤ tokens ≤ bucketSize` — tokens never go negative and never
exceed `bucketSize` however much time elapses between calls. -/
theorem tokens_bounded_invariant (cfg : RateLimitConfig) (hwf : wellFormed cfg)
    (ops : List Op) (t0 : ℤ) (hord : timeOrderedFrom t0 ops = true) :
    bucketsInv cfg (run cfg initialState ops) :=
  run_preserves_inv cfg hwf ops t0 initialState hord
    (fun _ _b hk => Option.noConfusion hk) (fun _ _b hk => Option.noConfusion hk)

/-- Witness for C3: a concrete time-ordered trace on the default
configuration (two admissions bracketing a sweep). -/
theorem tokens_bounded_invariant_witness :
    bucketsInv defaultConfig (run defaultConfig initialState
      [Op.isAllowed 0 "a", Op.cleanup 400000, Op.isAllowed 400000 "a"]) :=
  tokens_bounded_invariant defaultConfig
    (by refine ⟨?_, ?_, ?_⟩ <;> norm_num [defaultConfig])
    [Op.isAllowed 0 "a", Op.cleanup 400000, Op.isAllowed 400000 "a"] 0
    (by simp [timeOrderedFrom, opTime])

/-- Counterexample for C3 as frozen: with `bucketSize = 0`, the very
first admission stores `tokens = -1 < 0`, so the invariant fails without
the `bucketSize ≥ 1` assumption. -/
theorem tokens_bounded_counterexample :
    ¬ bucketsInv zeroCapacityConfig
        (run zeroCapacityConfig initialState [Op.isAllowed 0 "a"]) := by
  intro h
  have hrun : (run zeroCapacityConfig initialState [Op.isAllowed 0 "a"]).buckets "a" =
      some ⟨zeroCapacityConfig.bucketSize - 1, 0⟩ := by
    show ((isAllowed zeroCapacityConfig 0 "a" initialState).2).buckets "a" = _
    rw [isAllowed_none_eq zeroCapacityConfig 0 "a" initialState rfl]
    dsimp only
    rw [Function.update_same]
  have h2 := (h "a" ⟨zeroCapacityConfig.bucketSize - 1, 0⟩ hrun).1
  norm_num [zeroCapacityConfig] at h2

end KiwiSoluna

namespace KiwiSoluna

/-! ### Helper lemmas: integrality of token counts -/

theorem isIntValued_sub_one {q : ℚ} (h : IsIntValued q) : IsIntValued (q - 1) := by
  obtain ⟨z, rfl⟩ := h
  exact ⟨z - 1, by push_cast; ring⟩

theorem isIntValued_refill (cfg : RateLimitConfig) (hB : IsIntValued cfg.bucketSize)
    (htpi : IsIntValued cfg.tokensPerInterval) (now : ℤ) (b : TokenBucket)
    (hb : IsIntValued b.tokens) : IsIntValued (refillAmount cfg now b) := by
  obtain ⟨zB, hzB⟩ := hB
  obtain ⟨zt, hzt⟩ := htpi
  obtain ⟨zq, hzq⟩ := hb
  unfold refillAmount
  rw [hzB, hzt, hzq]
  refine ⟨min zB (zq + ⌊((now - b.lastRefill : ℤ) : ℚ) / cfg.interval⌋ * zt), ?_⟩
  push_cast
  rfl

theorem isAllowed_preserves_int (cfg : RateLimitConfig) (hB : IsIntValued cfg.bucketSize)
    (htpi : IsIntValued cfg.tokensPerInterval) (now : ℤ) (idf : String)
    (s : RateLimiterState) (h : intTokens s) : intTokens (isAllowed cfg now idf s).2 := by
  cases hb : s.buckets idf with
  | none =>
      have he := isAllowed_none_eq cfg now idf s hb
      intro key b hkey
      by_cases hk : key = idf
      · subst hk
        rw [he] at hkey
        dsimp only at hkey
        rw [Function.update_same, Option.some_inj] at hkey
        subst hkey
        exact isIntValued_sub_one hB
      · rw [he] at hkey
        dsimp only at hkey
        rw [Function.update_noteq hk] at hkey
        exact h key b hkey
  | some b0 =>
      have he := isAllowed_some_eq cfg now idf s b0 hb
      have hre := isIntValued_refill cfg hB htpi now b0 (h idf b0 hb)
      intro key b hkey
      by_cases hk : key = idf
      · subst hk
        rw [he] at hkey
        dsimp only at hkey
        rw [Function.update_same, Option.some_inj] at hkey
        subst hkey
        dsimp only
        split_ifs with h1
        · exact isIntValued_sub_one hre
        · exact hre
      · rw [he] at hkey
        dsimp only at hkey
        rw [Function.update_noteq hk] at hkey
        exact h key b hkey

theorem run_preserves_int (cfg : RateLimitConfig) (hB : IsIntValued cfg.bucketSize)
    (htpi : IsIntValued cfg.tokensPerInterval) :
    ∀ (ops : List Op) (s : RateLimiterState),
      intTokens s → intTokens (run cfg s ops) := by
  intro ops
  induction ops with
  | nil => intro s h; exact h
  | cons op ops ih =>
      intro s h
      cases op with
      | isAllowed now idf => exact ih _ (isAllowed_preserves_int cfg hB htpi now idf s h)
      | cleanup now =>
          have h2 : intTokens (cleanup now s) := by
            intro k b hk
            exact h k b (cleanup_buckets_sub now s k b hk)
          exact ih _ h2
      | getRemainingTokens idf => exact ih s h
      | getResetTimeSeconds idf => exact ih s h
      | startCleanup =>
          have h2 : intTokens (startCleanup s) := by
            intro k b hk
            rw [startCleanup_buckets] at hk
            exact h k b hk
          exact ih _ h2
      | stopCleanup =>
          have h2 : intTokens (stopCleanup s) := by
            intro k b hk
            rw [stopCleanup_buckets] at hk
            exact h k b hk
          exact ih _ h2

/-! ### Claim theorems: integrality -/

/-- C9 (amended): when `bucketSize` and `tokensPerInterval` hold integer
values, every bucket produced by any operation sequence holds an integer
token count, and the floor in `getRemainingTokens` is an identity on the
stored value.  (The inner ceiling of `getResetTimeSeconds` is *not* an
identity in general — see the counterexample.) -/
theorem tokens_integral (cfg : RateLimitConfig)
    (hB : ∃ z : ℤ, cfg.bucketSize = (z : ℚ))
    (htpi : ∃ z : ℤ, cfg.tokensPerInterval = (z : ℚ))
    (ops : List Op) (idf : String) (b : TokenBucket)
    (hb : (run cfg initialState ops).buckets idf = some b) :
    (∃ z : ℤ, b.tokens = (z : ℚ)) ∧
    getRemainingTokens cfg idf (run cfg initialState ops) = b.tokens := by
  have hint : intTokens (run cfg initialState ops) :=
    run_preserves_int cfg hB htpi ops initialState (fun _ _b hk => Option.noConfusion hk)
  have hz := hint idf b hb
  refine ⟨hz, ?_⟩
  unfold getRemainingTokens
  rw [hb]
  dsimp only
  obtain ⟨z, hzq⟩ := hz
  rw [hzq, Int.floor_intCast]

/-- Witness for C9: after one admission on the default configuration the
stored count 9 is an integer and is reported unchanged. -/
theorem tokens_integral_witness :
    (∃ z : ℤ, (TokenBucket.mk 9 0).tokens = (z : ℚ)) ∧
    getRemainingTokens defaultConfig "a" (run defaultConfig initialState [Op.isAllowed 0 "a"]) =
      (TokenBucket.mk 9 0).tokens :=
  tokens_integral defaultConfig ⟨10, by norm_num [defaultConfig]⟩ ⟨1, by norm_num [defaultConfig]⟩
    [Op.isAllowed 0 "a"] "a" ⟨9, 0⟩
    (by show ((isAllowed defaultConfig 0 "a" initialState).2).buckets "a" = _
        rw [isAllowed_none_eq defaultConfig 0 "a" initialState rfl]
        dsimp only
        rw [Function.update_same]
        norm_num [defaultConfig])

/-- Counterexample for C9 as frozen: with the integer configuration
`tokensPerInterval = 3`, `interval = 2000`, `bucketSize = 1`, the bucket
stores the integer `0` after one admission, yet the inner ceiling of
`getResetTimeSeconds` maps `(1 - 0) / 3 * 2000 = 2000 / 3` to `667`, so
it is not an identity. -/
theorem inner_ceil_counterexample :
    (∃ z : ℤ, thirdTokenConfig.bucketSize = (z : ℚ)) ∧
    (∃ z : ℤ, thirdTokenConfig.tokensPerInterval = (z : ℚ)) ∧
    (run thirdTokenConfig initialState [Op.isAllowed 0 "a"]).buckets "a" =
      some ⟨0, 0⟩ ∧
    ((⌈(1 - (0 : ℚ)) / thirdTokenConfig.tokensPerInterval * thirdTokenConfig.interval⌉ : ℤ) : ℚ) ≠
      (1 - (0 : ℚ)) / thirdTokenConfig.tokensPerInterval * thirdTokenConfig.interval := by
  refine ⟨⟨1, by norm_num [thirdTokenConfig]⟩, ⟨3, by norm_num [thirdTokenConfig]⟩, ?_, ?_⟩
  · show ((isAllowed thirdTokenConfig 0 "a" initialState).2).buckets "a" = _
    rw [isAllowed_none_eq thirdTokenConfig 0 "a" initialState rfl]
    dsimp only
    rw [Function.update_same]
    norm_num [thirdTokenConfig]
  · have hc : (⌈(2000 : ℚ) / 3⌉ : ℤ) = 667 :=
      Int.ceil_eq_iff.mpr (by norm_num)
    norm_num [thirdTokenConfig, hc]

end KiwiSoluna

namespace KiwiSoluna

/-- Witness for C6: the concrete sweep facts extracted from the claim
theorem (bucket aged 301 s removed, bucket aged 299 s retained). -/
theorem cleanup_sweep_spec_witness :
    (cleanup 301000 staleState).buckets "a" = none ∧
    (cleanup 299000 staleState).buckets "a" = some ⟨5, 0⟩ :=
  ⟨cleanup_sweep_spec.2.1, cleanup_sweep_spec.2.2⟩

end KiwiSoluna
